import Mathlib

/-
Verification of the travel-personal-assistant chat client.

The development shallowly embeds the two source files:
  * the Lambda forwarding function (conversation normalizer + handler), and
  * the browser chat component (`Chat.tsx` orchestrator).

JavaScript runtime services that the code merely calls (JSON.parse of the
conversation string, JSON.parse of the response string, the remote transport)
are modelled as oracle parameters; everything the repository itself computes
is translated directly from the source.
-/

set_option autoImplicit false

/-! ## Data model (shared by both source files) -/

/-- The `bytes` field of an image source: either a (base64 / data-URI) string
or a binary payload (`Buffer` in the source, modelled as a list of bytes). -/
inductive BytesVal where
  | str (s : String)
  | bin (b : List Nat)
  deriving DecidableEq

/-- A content item: `TextContent` or `ImageContent` from the source's tagged
union (distinguished there by which key is present). -/
inductive MessageContent where
  | text (t : String)
  | image (format : String) (bytes : BytesVal)
  deriving DecidableEq

/-- `interface Message { role: string; content: MessageContent[] }`. -/
structure Message where
  role : String
  content : List MessageContent
  deriving DecidableEq

/-- `type Conversation = Message[]`. -/
abbrev Conversation := List Message

/-! ## Conversation normalizer (forwarding function, `processMessages`) -/

/-- Character class `[a-z]` of the data-URI regex. -/
def isLowerAlpha (c : Char) : Bool :=
  'a' ≤ c && c ≤ 'z'

/-- Match a literal character sequence at the head of a list, returning the
remainder on success. -/
def dropLiteral : List Char → List Char → Option (List Char)
  | [], cs => some cs
  | _ :: _, [] => none
  | l :: ls, c :: cs => if c = l then dropLiteral ls cs else none

/-- Models `s.replace(/^data:image\/[a-z]+;base64,/, '')`: strip one leading
data-URI header (`data:image/` + nonempty lowercase run + `;base64,`) if the
string starts with one, otherwise return the string unchanged. -/
def stripDataUri (s : String) : String :=
  match dropLiteral "data:image/".toList s.toList with
  | none => s
  | some rest =>
    let sub := rest.takeWhile isLowerAlpha
    if sub.isEmpty then s
    else
      match dropLiteral ";base64,".toList (rest.dropWhile isLowerAlpha) with
      | none => s
      | some tail => String.mk tail

/-- Value of one base64 character (standard alphabet plus the url-safe
aliases that Node's decoder accepts); `none` for characters the decoder
ignores. -/
def base64Val (c : Char) : Option Nat :=
  if 'A' ≤ c ∧ c ≤ 'Z' then some (c.toNat - 65)
  else if 'a' ≤ c ∧ c ≤ 'z' then some (c.toNat - 97 + 26)
  else if '0' ≤ c ∧ c ≤ '9' then some (c.toNat - 48 + 52)
  else if c = '+' ∨ c = '-' then some 62
  else if c = '/' ∨ c = '_' then some 63
  else none

/-- Repack a stream of 6-bit groups into bytes; an incomplete trailing group
contributes the whole bytes it determines (Node drops the leftover bits). -/
def sextetsToBytes : List Nat → List Nat
  | a :: b :: c :: d :: rest =>
      (a * 4 + b / 16) :: ((b % 16) * 16 + c / 4) :: ((c % 4) * 64 + d) ::
        sextetsToBytes rest
  | [a, b] => [a * 4 + b / 16]
  | [a, b, c] => [a * 4 + b / 16, (b % 16) * 16 + c / 4]
  | _ => []

/-- Models `Buffer.from(s, 'base64')`: decode, ignoring characters outside
the base64 alphabet (including `=` padding). -/
def bufferFromBase64 (s : String) : List Nat :=
  sextetsToBytes (s.toList.filterMap base64Val)

/-- Characters that may occur in a base64-encoded payload: the decoder's
alphabet plus `=` padding. -/
def base64Char (c : Char) : Bool :=
  (base64Val c).isSome || c = '='

/-- The per-item body of `processMessages`' inner `map`.  Note the JS
truthiness guard `content.image.source.bytes`: an image whose bytes is the
empty string is passed through unchanged, as is any non-string (binary)
payload and any text item. -/
def processContent : MessageContent → MessageContent
  | MessageContent.text t => MessageContent.text t
  | MessageContent.image fmt (BytesVal.str s) =>
      if s = "" then MessageContent.image fmt (BytesVal.str s)
      else MessageContent.image fmt (BytesVal.bin (bufferFromBase64 (stripDataUri s)))
  | MessageContent.image fmt (BytesVal.bin b) => MessageContent.image fmt (BytesVal.bin b)

/-- The per-message body of `processMessages`' outer `map`: spread copy
keeping `role`, content mapped item-wise. -/
def processMessage (m : Message) : Message :=
  { m with content := m.content.map processContent }

/-- The structural part of `processMessages`, applied once parsing succeeded
(or was unnecessary). -/
def normalizeConversation (c : Conversation) : Conversation :=
  c.map processMessage

/-- The `conversation` argument of the forwarding function: either a
JSON-encoded string or an already structured `Message[]`. -/
inductive ConvInput where
  | str (s : String)
  | obj (c : Conversation)

/-- Errors thrown inside the forwarding function. -/
inductive HandlerErr where
  | formatError
  | noOutputMessage
  | remoteError (e : String)
  deriving DecidableEq

/-- `processMessages`: parse string input (via the `JSON.parse` oracle
`parse`; `none` models a parse exception, turned into
`new Error('Invalid conversation format')`), then map the conversation. -/
def processMessages (parse : String → Option Conversation) :
    ConvInput → Except HandlerErr Conversation
  | ConvInput.str s =>
      match parse s with
      | some c => Except.ok (normalizeConversation c)
      | none => Except.error HandlerErr.formatError
  | ConvInput.obj c => Except.ok (normalizeConversation c)

/-- The Lambda `handler`: normalize, send to Bedrock (the `remote` oracle
returns `response.output?.message`, or a thrown transport error), fail if the
output message is absent, otherwise return it (the source then
JSON-stringifies it for the transport). -/
def handler (parse : String → Option Conversation)
    (remote : Conversation → Except String (Option Message)) (input : ConvInput) :
    Except HandlerErr Message :=
  match processMessages parse input with
  | Except.error e => Except.error e
  | Except.ok msgs =>
      match remote msgs with
      | Except.error e => Except.error (HandlerErr.remoteError e)
      | Except.ok none => Except.error HandlerErr.noOutputMessage
      | Except.ok (some m) => Except.ok m

/-! ## Chat orchestrator (`Chat.tsx`) -/

/-- The part of a browser `File` the component reads: MIME type and size. -/
structure ImageFile where
  type : String
  size : Nat
  deriving DecidableEq

/-- The `useState` pieces of the `Chat` component. -/
structure ChatState where
  conversation : List Message
  inputValue : String
  selectedImage : Option ImageFile
  imagePreview : Option String
  error : String
  isLoading : Bool
  deriving DecidableEq

/-- Initial state of a fresh session. -/
def initialState : ChatState :=
  { conversation := [], inputValue := "", selectedImage := none,
    imagePreview := none, error := "", isLoading := false }

/-- The MIME allow-list of `handleImageSelect`. -/
def allowedTypes : List String :=
  ["image/jpeg", "image/jpg", "image/png", "image/gif", "image/webp"]

/-- `handleImageSelect` with a (possibly absent) selected file.  The preview
is computed asynchronously by a `FileReader`; synchronously only the file
reference and the error state change (`setSelectedImage`, `setError("")`).
The later arrival of the preview is modelled by `previewLoaded`. -/
def handleImageSelect (s : ChatState) (file? : Option ImageFile) : ChatState :=
  match file? with
  | none => s
  | some file =>
      if ¬ allowedTypes.contains file.type then
        { s with error := "Please select a valid image file (JPEG, PNG, GIF, or WebP)" }
      else if file.size > 5 * 1024 * 1024 then
        { s with error := "Image size must be less than 5MB" }
      else
        { s with selectedImage := some file, error := "" }

/-- Completion of the asynchronous `FileReader` preview computation. -/
def previewLoaded (s : ChatState) (preview : String) : ChatState :=
  { s with imagePreview := some preview }

/-- Whitespace for the purposes of JavaScript's `String.prototype.trim`. -/
def isJsWhitespace (c : Char) : Bool :=
  c = ' ' || c = '\t' || c = '\n' || c = '\r' || c = '\x0b' || c = '\x0c'

/-- Models `s.trim()`. -/
def jsTrim (s : String) : String :=
  String.mk (((s.toList.dropWhile isJsWhitespace).reverse.dropWhile isJsWhitespace).reverse)

/-- MIME subtype extraction `selectedImage.type.split('/')[1]`: the chunk
between the first and second `/` (the sources only ever pass types of the
shape `image/<subtype>`; a type with no `/` is out of scope and maps to ""). -/
def mimeSubtype (t : String) : String :=
  String.mk (((t.toList.dropWhile (· ≠ '/')).drop 1).takeWhile (· ≠ '/'))

/-- `createUserMessage`: build the user message (untrimmed text first when the
trimmed text is nonempty, then the image when both a file and a ready preview
exist) and clear the inputs (`setInputValue("")`, `removeImage()`). -/
def createUserMessage (s : ChatState) : Message × ChatState :=
  let content : List MessageContent :=
    (if jsTrim s.inputValue ≠ "" then [MessageContent.text s.inputValue] else [])
    ++ (match s.selectedImage, s.imagePreview with
        | some file, some preview =>
            [MessageContent.image (mimeSubtype file.type) (BytesVal.str preview)]
        | _, _ => [])
  ({ role := "user", content := content },
   { s with inputValue := "", selectedImage := none, imagePreview := none })

/-- The `data` field of the transport response: a JSON string or an already
structured message (absent / `null` is `none`). -/
inductive DataVal where
  | str (s : String)
  | obj (m : Message)
  deriving DecidableEq

/-- One element of the transport's error list. -/
structure ErrDetail where
  message : Option String
  errorType : Option String
  deriving DecidableEq

/-- The `{ data, errors }` result of `amplifyClient.queries.chat`. -/
structure RemoteResult where
  data : Option DataVal
  errors : Option (List ErrDetail)
  deriving DecidableEq

/-- JS truthiness of `data`: absent and the empty string are falsy. -/
def dataTruthy : Option DataVal → Bool
  | none => false
  | some (DataVal.str s) => s ≠ ""
  | some (DataVal.obj _) => true

/-- JS falsiness of `errors`: only an absent list is falsy (an array value,
even an empty one, is truthy). -/
def errorsFalsy : Option (List ErrDetail) → Bool
  | none => true
  | some _ => false

/-- `errors?.[0]`. -/
def firstError? : Option (List ErrDetail) → Option ErrDetail
  | none => none
  | some l => l.head?

/-- Models `JSON.stringify(errors[0])` for our two-field error objects
(absent fields are omitted; values without escaping-relevant characters). -/
def stringifyErrDetail (e : ErrDetail) : String :=
  match e.message, e.errorType with
  | none, none => "\x7b\x7d"
  | some m, none => "\x7b\"message\":\"" ++ m ++ "\"\x7d"
  | none, some t => "\x7b\"errorType\":\"" ++ t ++ "\"\x7d"
  | some m, some t =>
      "\x7b\"message\":\"" ++ m ++ "\",\"errorType\":\"" ++ t ++ "\"\x7d"

/-- JS `a || b` on an optional string: falls through on `undefined` and `""`. -/
def jsOr (a : Option String) (b : String) : String :=
  match a with
  | some s => if s = "" then b else s
  | none => b

/-- The `errorMessage` expression of `fetchChatResponse`:
`errors?.[0]?.message || errors?.[0]?.errorType ||
 (typeof errors?.[0] === 'object' ? JSON.stringify(errors?.[0]) : String(errors?.[0])) ||
 "An unknown error occurred."`.
When `errors?.[0]` is `undefined`, the third alternative is
`String(undefined)`, the (truthy) string `"undefined"`. -/
def computeErrorMessage (errs : Option (List ErrDetail)) : String :=
  match firstError? errs with
  | some e =>
      jsOr e.message (jsOr e.errorType
        (jsOr (some (stringifyErrDetail e)) "An unknown error occurred."))
  | none => "undefined"

/-- `fetchChatResponse` run to completion for one exchange.  `parse` is the
`JSON.parse` oracle for a string-typed response (`none` models a parse
exception), `remote` the transport result.  `setIsLoading(true)` is issued
first and the `finally` block forces it back to `false`. -/
def fetchChatResponse (parse : String → Option Message) (remote : RemoteResult)
    (message : Message) (s : ChatState) : ChatState :=
  let s1 := { s with isLoading := true }
  let s2 :=
    if errorsFalsy remote.errors && dataTruthy remote.data then
      match remote.data with
      | some (DataVal.str d) =>
          match parse d with
          | some responseMessage =>
              { s1 with conversation := s1.conversation ++ [message, responseMessage] }
          | none => { s1 with error := "Failed to parse response data" }
      | some (DataVal.obj m) =>
          { s1 with conversation := s1.conversation ++ [message, m] }
      | none => s1
    else
      { s1 with error := computeErrorMessage remote.errors }
  { s2 with isLoading := false }

/-- The guard of `handleSubmit`: `inputValue.trim() || selectedImage`. -/
def submitGuard (s : ChatState) : Bool :=
  jsTrim s.inputValue ≠ "" || s.selectedImage.isSome

/-- `handleSubmit`: when the guard passes, build the user message (clearing
the inputs) and run the exchange; otherwise do nothing. -/
def handleSubmit (parse : String → Option Message) (remote : RemoteResult)
    (s : ChatState) : ChatState :=
  if submitGuard s then
    fetchChatResponse parse remote (createUserMessage s).1 (createUserMessage s).2
  else s

/-- The message the success path of `fetchChatResponse` appends, if any:
`some` exactly when the exchange succeeds. -/
def responseMessageOf (parse : String → Option Message) (r : RemoteResult) :
    Option Message :=
  if errorsFalsy r.errors && dataTruthy r.data then
    match r.data with
    | some (DataVal.str d) => parse d
    | some (DataVal.obj m) => some m
    | none => none
  else none


/-- The error string a failed exchange stores: the response-parse message on
the success-shaped-but-unparseable path, the `errorMessage` chain otherwise. -/
def failureErrorOf (_parse : String → Option Message) (r : RemoteResult) : String :=
  if errorsFalsy r.errors && dataTruthy r.data then "Failed to parse response data"
  else computeErrorMessage r.errors

/-- Recognizer for text items (used to state the text-only identity law). -/
def isTextItem : MessageContent → Bool
  | MessageContent.text _ => true
  | MessageContent.image _ _ => false

/-- A conversation whose content consists only of text items. -/
def textOnly (c : Conversation) : Bool :=
  c.all (fun m => m.content.all isTextItem)

/-- JS falsiness of an optional string field: `undefined` or `""`. -/
def optFalsy : Option String → Bool
  | none => true
  | some s => s == ""

/-! ## Helper lemmas -/

theorem dropLiteral_self_append (lit rest : List Char) :
    dropLiteral lit (lit ++ rest) = some rest := by
  induction lit with
  | nil => rfl
  | cons l ls ih => simp [dropLiteral, ih]

theorem dropLiteral_some_eq {lit cs rest : List Char}
    (h : dropLiteral lit cs = some rest) : cs = lit ++ rest := by
  induction lit generalizing cs with
  | nil =>
    simp [dropLiteral] at h
    simp [h]
  | cons l ls ih =>
    cases cs with
    | nil => simp [dropLiteral] at h
    | cons c cs' =>
      by_cases hc : c = l
      · subst hc
        simp [dropLiteral] at h
        simp [ih h]
      · simp [dropLiteral, hc] at h

theorem stripDataUri_of_base64 (b : String) (h : b.toList.all base64Char = true) :
    stripDataUri b = b := by
  unfold stripDataUri
  cases hdrop : dropLiteral "data:image/".toList b.toList with
  | none => rfl
  | some rest =>
    exfalso
    have heq := dropLiteral_some_eq hdrop
    have hmem : ':' ∈ b.toList := by
      rw [heq]
      exact List.mem_append.mpr (Or.inl (by decide))
    have hcol := List.all_eq_true.mp h ':' hmem
    simp [base64Char, base64Val] at hcol

theorem takeWhile_lower_append (subl t : List Char) (h : subl.all isLowerAlpha = true) :
    (subl ++ ';' :: t).takeWhile isLowerAlpha = subl ∧
    (subl ++ ';' :: t).dropWhile isLowerAlpha = ';' :: t := by
  induction subl with
  | nil =>
    constructor <;> simp [List.takeWhile, List.dropWhile, isLowerAlpha]
  | cons c cs ih =>
    simp only [List.all_cons, Bool.and_eq_true] at h
    have := ih h.2
    constructor <;> simp [List.takeWhile, List.dropWhile, h.1, this.1, this.2]

theorem mk_toList (s : String) : String.mk s.toList = s := by
  cases s
  rfl

theorem toList_append (a b : String) : (a ++ b).toList = a.toList ++ b.toList := rfl

theorem stripDataUri_strips (sub b : String)
    (hne : sub.toList ≠ []) (hlow : sub.toList.all isLowerAlpha = true) :
    stripDataUri ("data:image/" ++ sub ++ ";base64," ++ b) = b := by
  have hsemi : ";base64,".toList = ';' :: "base64,".toList := by decide
  have hlist : ("data:image/" ++ sub ++ ";base64," ++ b).toList
      = "data:image/".toList ++ (sub.toList ++ (';' :: ("base64,".toList ++ b.toList))) := by
    simp [toList_append, hsemi]
  have htw := takeWhile_lower_append sub.toList ("base64,".toList ++ b.toList) hlow
  have hEmpty : sub.toList.isEmpty = false := by
    cases hs : sub.toList with
    | nil => exact absurd hs hne
    | cons c cs => rfl
  unfold stripDataUri
  rw [hlist, dropLiteral_self_append]
  simp only [htw.1, htw.2, hEmpty, Bool.false_eq_true, if_false]
  rw [hsemi, ← List.cons_append, dropLiteral_self_append]
  exact mk_toList b

theorem str_append_ne_empty (a b : String) (ha : a ≠ "") : a ++ b ≠ "" := by
  intro h
  apply ha
  cases a with
  | mk la =>
    cases b with
    | mk lb =>
      simp [String.ext_iff] at h ⊢
      exact h.1

theorem stringifyErrDetail_ne_empty (e : ErrDetail) : stringifyErrDetail e ≠ "" := by
  obtain ⟨m, t⟩ := e
  cases m <;> cases t <;> simp only [stringifyErrDetail]
  · decide
  · exact str_append_ne_empty _ _ (str_append_ne_empty _ _ (by decide))
  · exact str_append_ne_empty _ _ (str_append_ne_empty _ _ (by decide))
  · exact str_append_ne_empty _ _ (str_append_ne_empty _ _
      (str_append_ne_empty _ _ (str_append_ne_empty _ _ (by decide))))

theorem jsOr_ne_empty (a : Option String) (b : String) (hb : b ≠ "") :
    jsOr a b ≠ "" := by
  cases a with
  | none => exact hb
  | some s =>
    by_cases hs : s = "" <;> simp [jsOr, hs, hb]

theorem computeErrorMessage_ne_empty (errs : Option (List ErrDetail)) :
    computeErrorMessage errs ≠ "" := by
  unfold computeErrorMessage
  cases firstError? errs with
  | none => decide
  | some e =>
    exact jsOr_ne_empty _ _ (jsOr_ne_empty _ _ (jsOr_ne_empty _ _ (by decide)))

theorem createUserMessage_state (s : ChatState) :
    (createUserMessage s).2 =
      { s with inputValue := "", selectedImage := none, imagePreview := none } := rfl

/-- One-lemma description of a guarded `handleSubmit` run: success appends the
user message and the response message, failure stores `failureErrorOf`; in
both cases the inputs are cleared and loading ends `false`. -/
theorem handleSubmit_run (parse : String → Option Message) (remote : RemoteResult)
    (s : ChatState) (hg : submitGuard s = true) :
    handleSubmit parse remote s =
      match responseMessageOf parse remote with
      | some m =>
          { s with conversation := s.conversation ++ [(createUserMessage s).1, m],
                   inputValue := "", selectedImage := none, imagePreview := none,
                   isLoading := false }
      | none =>
          { s with inputValue := "", selectedImage := none, imagePreview := none,
                   error := failureErrorOf parse remote, isLoading := false } := by
  unfold handleSubmit
  simp only [hg, if_true]
  unfold fetchChatResponse responseMessageOf failureErrorOf
  cases hcond : errorsFalsy remote.errors && dataTruthy remote.data with
  | false => rfl
  | true =>
    cases hd : remote.data with
    | none =>
      rw [hd] at hcond
      simp [dataTruthy] at hcond
    | some dv =>
      cases dv with
      | str d =>
        cases hp : parse d with
        | none => simp only [hp]; rfl
        | some m => simp only [hp]; rfl
      | obj m => rfl

theorem jsOr_falsy (a : Option String) (b : String) (h : optFalsy a = true) :
    jsOr a b = b := by
  cases a with
  | none => rfl
  | some s =>
    simp [optFalsy] at h
    simp [jsOr, h]

theorem jsOr_truthy (s b : String) (h : s ≠ "") : jsOr (some s) b = s := by
  simp [jsOr, h]

theorem processContent_of_text (item : MessageContent) (h : isTextItem item = true) :
    processContent item = item := by
  cases item with
  | text t => rfl
  | image fmt b => simp [isTextItem] at h

theorem map_processContent_id (l : List MessageContent) (h : l.all isTextItem = true) :
    l.map processContent = l := by
  induction l with
  | nil => rfl
  | cons it its ih =>
    simp only [List.all_cons, Bool.and_eq_true] at h
    simp [processContent_of_text it h.1, ih h.2]

theorem processMessage_id (m : Message) (h : m.content.all isTextItem = true) :
    processMessage m = m := by
  unfold processMessage
  rw [map_processContent_id m.content h]

theorem createUserMessage_content_no_preview (s : ChatState)
    (hp : s.imagePreview = none) :
    (createUserMessage s).1.content =
      if jsTrim s.inputValue ≠ "" then [MessageContent.text s.inputValue] else [] := by
  cases hsel : s.selectedImage <;> simp [createUserMessage, hp, hsel]

/-! ## Claim theorems -/

/-- C4: for every string input the JSON-parse oracle rejects, normalization
fails with the FormatError ('Invalid conversation format') and produces no
partially transformed conversation, and the handler result is that same
error for every remote oracle — so the remote inference call is never
attempted for that exchange. -/
theorem nonJson_input_is_formatError
    (parse : String → Option Conversation)
    (remote : Conversation → Except String (Option Message))
    (s : String) (h : parse s = none) :
    processMessages parse (ConvInput.str s) = Except.error HandlerErr.formatError
    ∧ handler parse remote (ConvInput.str s) = Except.error HandlerErr.formatError
    ∧ ∀ remote2 : Conversation → Except String (Option Message),
        handler parse remote (ConvInput.str s) = handler parse remote2 (ConvInput.str s) := by
  have h1 : processMessages parse (ConvInput.str s) = Except.error HandlerErr.formatError := by
    simp [processMessages, h]
  refine ⟨h1, ?_, ?_⟩
  · simp [handler, h1]
  · intro remote2
    simp [handler, h1]

/-- C4 witness: a concrete rejecting parse oracle on "not json" yields the
format error through the handler. -/
theorem nonJson_input_is_formatError_witness :
    handler (fun _ => none) (fun _ => Except.ok none) (ConvInput.str "not json")
      = Except.error HandlerErr.formatError :=
  (nonJson_input_is_formatError (fun _ => none) (fun _ => Except.ok none)
    "not json" rfl).2.1

/-- C5 counterexample: for the empty base64 string the claim fails — the
unprefixed item is passed through as a string (the truthiness guard skips
it), while the prefixed variant is decoded to an empty binary payload, so
the two normalizations do not agree on a binary payload. -/
theorem emptyBase64_prefix_dependent :
    processContent (MessageContent.image "png" (BytesVal.str ""))
      = MessageContent.image "png" (BytesVal.str "")
    ∧ processContent (MessageContent.image "png" (BytesVal.str "data:image/png;base64,"))
      = MessageContent.image "png" (BytesVal.bin [])
    ∧ (BytesVal.str "" : BytesVal) ≠ BytesVal.bin [] := by decide

/-- C5 (amended): for every ImageItem whose bytes is a non-empty base64
string, normalization yields the same binary payload whether or not the
string carries a `data:image/<fmt>;base64,` prefix, and the format field is
unchanged. -/
theorem image_base64_prefix_invariant (fmt sub b : String)
    (hsub_ne : sub.toList ≠ []) (hsub_low : sub.toList.all isLowerAlpha = true)
    (hb64 : b.toList.all base64Char = true) (hb_ne : b ≠ "") :
    processContent (MessageContent.image fmt
        (BytesVal.str ("data:image/" ++ sub ++ ";base64," ++ b)))
      = MessageContent.image fmt (BytesVal.bin (bufferFromBase64 b))
    ∧ processContent (MessageContent.image fmt (BytesVal.str b))
      = MessageContent.image fmt (BytesVal.bin (bufferFromBase64 b)) := by
  constructor
  · have hne : ("data:image/" ++ sub ++ ";base64," ++ b) ≠ "" :=
      str_append_ne_empty _ _ (str_append_ne_empty _ _
        (str_append_ne_empty _ _ (by decide)))
    simp only [processContent, hne, if_false]
    rw [stripDataUri_strips sub b hsub_ne hsub_low]
  · simp only [processContent, hb_ne, if_false]
    rw [stripDataUri_of_base64 b hb64]

/-- C5 witness: the data-URI "data:image/png;base64,QUJD" normalizes to the
bytes `A B C` with format still "png", the same payload the bare "QUJD"
yields. -/
theorem image_base64_prefix_invariant_witness :
    processContent (MessageContent.image "png" (BytesVal.str "data:image/png;base64,QUJD"))
      = MessageContent.image "png" (BytesVal.bin [65, 66, 67])
    ∧ processContent (MessageContent.image "png" (BytesVal.str "QUJD"))
      = MessageContent.image "png" (BytesVal.bin [65, 66, 67]) := by
  have h := image_base64_prefix_invariant "png" "png" "QUJD"
    (by decide) (by decide) (by decide) (by decide)
  have heq : ("data:image/" ++ "png" ++ ";base64," ++ "QUJD")
      = "data:image/png;base64,QUJD" := by decide
  have hbuf : bufferFromBase64 "QUJD" = [65, 66, 67] := by decide
  rw [heq, hbuf] at h
  exact h

/-- C6: normalization is the identity on conversations whose content is all
text items, passes every binary-bytes image item through unchanged, and
rewrites only image items whose bytes is a string. -/
theorem normalization_identity_cases :
    (∀ c : Conversation, textOnly c = true → normalizeConversation c = c)
    ∧ (∀ (fmt : String) (b : List Nat),
        processContent (MessageContent.image fmt (BytesVal.bin b))
          = MessageContent.image fmt (BytesVal.bin b))
    ∧ (∀ item : MessageContent, processContent item ≠ item →
        ∃ fmt s, item = MessageContent.image fmt (BytesVal.str s)) := by
  refine ⟨?_, fun fmt b => rfl, ?_⟩
  · intro c hc
    unfold normalizeConversation
    induction c with
    | nil => rfl
    | cons m ms ih =>
      simp only [textOnly, List.all_cons, Bool.and_eq_true] at hc
      have hms : textOnly ms = true := hc.2
      simp [processMessage_id m hc.1, ih hms]
  · intro item hne
    cases item with
    | text t => exact absurd rfl hne
    | image fmt bv =>
      cases bv with
      | str s => exact ⟨fmt, s, rfl⟩
      | bin b => exact absurd rfl hne

/-- C6 witness: the identity on a concrete text-only conversation. -/
theorem normalization_identity_cases_witness :
    normalizeConversation [⟨"user", [MessageContent.text "Show me Paris"]⟩]
      = [⟨"user", [MessageContent.text "Show me Paris"]⟩] :=
  normalization_identity_cases.1 _ (by decide)

/-- C7: normalization preserves order end-to-end — same number of messages,
message `i` keeps its role and its number of content items, and item `j` of
output message `i` is exactly the normalized item `j` of input message `i`. -/
theorem normalization_preserves_order (cv : Conversation) :
    (normalizeConversation cv).length = cv.length
    ∧ (∀ i : Nat, ((normalizeConversation cv)[i]?).map Message.role
        = (cv[i]?).map Message.role)
    ∧ (∀ i : Nat, ((normalizeConversation cv)[i]?).map (fun m => m.content.length)
        = (cv[i]?).map (fun m => m.content.length))
    ∧ (∀ i j : Nat, ((normalizeConversation cv)[i]?).bind (fun m => m.content[j]?)
        = ((cv[i]?).bind (fun m => m.content[j]?)).map processContent) := by
  refine ⟨by simp [normalizeConversation], ?_, ?_, ?_⟩
  · intro i
    rw [normalizeConversation, List.getElem?_map]
    cases cv[i]? <;> simp [processMessage]
  · intro i
    rw [normalizeConversation, List.getElem?_map]
    cases cv[i]? <;> simp [processMessage]
  · intro i j
    rw [normalizeConversation, List.getElem?_map]
    cases cv[i]? with
    | none => rfl
    | some m => simp [processMessage, List.getElem?_map]

theorem handleImageSelect_some (s : ChatState) (f : ImageFile) :
    handleImageSelect s (some f) =
      if ¬ allowedTypes.contains f.type then
        { s with error := "Please select a valid image file (JPEG, PNG, GIF, or WebP)" }
      else if f.size > 5 * 1024 * 1024 then
        { s with error := "Image size must be less than 5MB" }
      else { s with selectedImage := some f, error := "" } := rfl

/-- C8: selectImage validates the MIME type against the allow-list and the
size against the 5 MiB limit; on any violation it only sets the error state
(to a non-empty message) and leaves the pending attachment, the preview and
the rest of the state untouched; when the type is allowed the violation is
the size one and the stored message is "Image size must be less than 5MB". -/
theorem selectImage_rejects (s : ChatState) (f : ImageFile)
    (h : allowedTypes.contains f.type = false ∨ 5 * 1024 * 1024 < f.size) :
    (handleImageSelect s (some f)).selectedImage = s.selectedImage
    ∧ (handleImageSelect s (some f)).imagePreview = s.imagePreview
    ∧ (handleImageSelect s (some f)).conversation = s.conversation
    ∧ (handleImageSelect s (some f)).inputValue = s.inputValue
    ∧ (handleImageSelect s (some f)).error ≠ ""
    ∧ (allowedTypes.contains f.type = true →
        (handleImageSelect s (some f)).error = "Image size must be less than 5MB") := by
  cases ht : allowedTypes.contains f.type with
  | false =>
    have hred : handleImageSelect s (some f)
        = { s with error := "Please select a valid image file (JPEG, PNG, GIF, or WebP)" } := by
      rw [handleImageSelect_some, ht]
      simp
    rw [hred]
    refine ⟨rfl, rfl, rfl, rfl, ?_, ?_⟩
    · exact (by decide :
        ("Please select a valid image file (JPEG, PNG, GIF, or WebP)" : String) ≠ "")
    · intro h'
      simp at h'
  | true =>
    have hsize : 5 * 1024 * 1024 < f.size := by
      cases h with
      | inl h' => rw [ht] at h'; cases h'
      | inr h' => exact h'
    have hred : handleImageSelect s (some f)
        = { s with error := "Image size must be less than 5MB" } := by
      rw [handleImageSelect_some, ht]
      simp [hsize]
    rw [hred]
    refine ⟨rfl, rfl, rfl, rfl, ?_, fun _ => rfl⟩
    exact (by decide : ("Image size must be less than 5MB" : String) ≠ "")

/-- C8 witness: a 6 MB JPEG selected from the initial state sets the size
error and leaves the pending attachment unset. -/
theorem selectImage_rejects_witness :
    (handleImageSelect initialState (some ⟨"image/jpeg", 6 * 1024 * 1024⟩)).error
      = "Image size must be less than 5MB"
    ∧ (handleImageSelect initialState (some ⟨"image/jpeg", 6 * 1024 * 1024⟩)).selectedImage
      = none := by
  have h := selectImage_rejects initialState ⟨"image/jpeg", 6 * 1024 * 1024⟩
    (Or.inr (by decide))
  exact ⟨h.2.2.2.2.2 (by decide), h.1.trans rfl⟩

/-- C3 counterexample: with empty text and an attachment whose preview is not
yet ready, submit is not a no-op — the guard accepts the file alone and the
state changes (the attachment is cleared and the exchange runs). -/
theorem submit_without_preview_not_noop :
    handleSubmit (fun _ => none) ⟨none, none⟩
        { conversation := [], inputValue := "", selectedImage := some ⟨"image/png", 100⟩,
          imagePreview := none, error := "", isLoading := false }
      ≠ { conversation := [], inputValue := "", selectedImage := some ⟨"image/png", 100⟩,
          imagePreview := none, error := "", isLoading := false } := by decide

/-- C3 (amended): submit is a no-op — the state is returned unchanged, for
every transport and parse oracle (so no remote call is observable) — when
the trimmed text is empty and no image attachment is selected; the guard
does not consult the preview. -/
theorem submit_noop_when_empty (parse : String → Option Message)
    (remote : RemoteResult) (s : ChatState)
    (htext : jsTrim s.inputValue = "") (himg : s.selectedImage = none) :
    handleSubmit parse remote s = s := by
  have hg : submitGuard s = false := by
    unfold submitGuard
    rw [htext, himg]
    decide
  unfold handleSubmit
  simp [hg]

/-- C3 witness: the empty initial state is untouched by submit. -/
theorem submit_noop_when_empty_witness :
    handleSubmit (fun _ => none) ⟨none, none⟩ initialState = initialState :=
  submit_noop_when_empty (fun _ => none) ⟨none, none⟩ initialState (by decide) rfl

/-- C1 counterexample: a successful submit does not unset a pre-existing
error — the history grows by exactly the user and assistant messages, yet
the error state is still the stale non-empty string. -/
theorem success_keeps_stale_error :
    (handleSubmit (fun _ => none)
        ⟨some (DataVal.obj ⟨"assistant", [MessageContent.text "hi"]⟩), none⟩
        { conversation := [], inputValue := "hello", selectedImage := none,
          imagePreview := none, error := "previous error", isLoading := false }).conversation
      = [⟨"user", [MessageContent.text "hello"]⟩, ⟨"assistant", [MessageContent.text "hi"]⟩]
    ∧ (handleSubmit (fun _ => none)
        ⟨some (DataVal.obj ⟨"assistant", [MessageContent.text "hi"]⟩), none⟩
        { conversation := [], inputValue := "hello", selectedImage := none,
          imagePreview := none, error := "previous error", isLoading := false }).error
      = "previous error"
    ∧ "previous error" ≠ "" := by decide

/-- C1 (amended): after a successful submit (no error list, truthy data, and
a response message obtained) the history grows by exactly two entries — the
new user message then the response message — the text buffer and attachment
are cleared, loading is false, and the error state is unchanged from before
the call. -/
theorem submit_success_state (parse : String → Option Message)
    (remote : RemoteResult) (s : ChatState) (m : Message)
    (hg : submitGuard s = true)
    (hm : responseMessageOf parse remote = some m) :
    handleSubmit parse remote s =
      { s with conversation := s.conversation ++ [(createUserMessage s).1, m],
               inputValue := "", selectedImage := none, imagePreview := none,
               isLoading := false } := by
  rw [handleSubmit_run parse remote s hg, hm]

/-- C1 witness: the spec's "Show me Paris" exchange from a fresh state. -/
theorem submit_success_state_witness :
    handleSubmit (fun _ => none)
        ⟨some (DataVal.obj ⟨"assistant", [MessageContent.text "Bonjour"]⟩), none⟩
        { initialState with inputValue := "Show me Paris" }
      = { conversation := [⟨"user", [MessageContent.text "Show me Paris"]⟩,
                           ⟨"assistant", [MessageContent.text "Bonjour"]⟩],
          inputValue := "", selectedImage := none, imagePreview := none,
          error := "", isLoading := false } := by
  have h := submit_success_state (fun _ => none)
      ⟨some (DataVal.obj ⟨"assistant", [MessageContent.text "Bonjour"]⟩), none⟩
      { initialState with inputValue := "Show me Paris" }
      ⟨"assistant", [MessageContent.text "Bonjour"]⟩ (by decide) (by decide)
  rw [h]
  decide

/-- C2 counterexample: when the first reported error carries neither a
message nor an errorType, the stored error is the JSON rendering of the
error object — the string rendered from the empty object — and not the
code's generic fallback message, so the claimed message/errorType/generic
chain does not describe the code. -/
theorem error_chain_has_stringify_step :
    (handleSubmit (fun _ => none) ⟨none, some [⟨none, none⟩]⟩
        { conversation := [], inputValue := "hi", selectedImage := none,
          imagePreview := none, error := "", isLoading := false }).error = "\x7b\x7d"
    ∧ ("\x7b\x7d" : String) ≠ "An unknown error occurred." := by decide

/-- C2 (amended): after a failed submit the visible history is exactly what
it was before the call and loading is false; the error state is a non-empty
string, and when a non-empty error list is present it equals the first
error's message, falling back — when a field is absent or empty — to its
errorType, then to the JSON rendering of the first error object. -/
theorem submit_failure_state (parse : String → Option Message)
    (remote : RemoteResult) (s : ChatState)
    (hg : submitGuard s = true)
    (hf : responseMessageOf parse remote = none) :
    (handleSubmit parse remote s).conversation = s.conversation
    ∧ (handleSubmit parse remote s).isLoading = false
    ∧ (handleSubmit parse remote s).error ≠ ""
    ∧ ∀ e rest, remote.errors = some (e :: rest) →
        ((∀ msg, e.message = some msg → msg ≠ "" →
            (handleSubmit parse remote s).error = msg)
         ∧ (optFalsy e.message = true → ∀ t, e.errorType = some t → t ≠ "" →
            (handleSubmit parse remote s).error = t)
         ∧ (optFalsy e.message = true → optFalsy e.errorType = true →
            (handleSubmit parse remote s).error = stringifyErrDetail e)) := by
  rw [handleSubmit_run parse remote s hg, hf]
  refine ⟨rfl, rfl, ?_, ?_⟩
  · show failureErrorOf parse remote ≠ ""
    unfold failureErrorOf
    split
    · decide
    · exact computeErrorMessage_ne_empty remote.errors
  · intro e rest herr
    have hfe : failureErrorOf parse remote
        = jsOr e.message (jsOr e.errorType
            (jsOr (some (stringifyErrDetail e)) "An unknown error occurred.")) := by
      unfold failureErrorOf
      rw [herr]
      simp only [errorsFalsy, Bool.false_and, if_false]
      unfold computeErrorMessage firstError?
      simp [List.head?]
    refine ⟨?_, ?_, ?_⟩
    · intro msg hmsg hne
      show failureErrorOf parse remote = msg
      rw [hfe, hmsg, jsOr_truthy msg _ hne]
    · intro hmf t ht htne
      show failureErrorOf parse remote = t
      rw [hfe, jsOr_falsy _ _ hmf, ht, jsOr_truthy t _ htne]
    · intro hmf htf
      show failureErrorOf parse remote = stringifyErrDetail e
      rw [hfe, jsOr_falsy _ _ hmf, jsOr_falsy _ _ htf,
        jsOr_truthy _ _ (stringifyErrDetail_ne_empty e)]

/-- C2 witness: a throttling error leaves the history empty and stores the
first error's message. -/
theorem submit_failure_state_witness :
    (handleSubmit (fun _ => none)
        ⟨none, some [⟨some "Rate exceeded", some "ThrottlingException"⟩]⟩
        { initialState with inputValue := "hello" }).error = "Rate exceeded"
    ∧ (handleSubmit (fun _ => none)
        ⟨none, some [⟨some "Rate exceeded", some "ThrottlingException"⟩]⟩
        { initialState with inputValue := "hello" }).conversation = [] := by
  have h := submit_failure_state (fun _ => none)
      ⟨none, some [⟨some "Rate exceeded", some "ThrottlingException"⟩]⟩
      { initialState with inputValue := "hello" } (by decide) (by decide)
  exact ⟨((h.2.2.2 _ _ rfl).1 "Rate exceeded" rfl (by decide)), h.1.trans rfl⟩

/-- C9: with a file selected but its preview not yet computed, submit is not
blocked — the guard passes on the selection alone — while the built user
message contains no image item (only text, and no items at all when the
trimmed text is empty), and handleSubmit proceeds to the exchange with
exactly that message. -/
theorem submit_pending_preview (parse : String → Option Message)
    (remote : RemoteResult) (s : ChatState) (f : ImageFile)
    (hfile : s.selectedImage = some f) (hprev : s.imagePreview = none) :
    submitGuard s = true
    ∧ (∀ item ∈ (createUserMessage s).1.content, ∃ t, item = MessageContent.text t)
    ∧ (jsTrim s.inputValue = "" → (createUserMessage s).1.content = [])
    ∧ (createUserMessage s).1.role = "user"
    ∧ handleSubmit parse remote s
        = fetchChatResponse parse remote (createUserMessage s).1 (createUserMessage s).2 := by
  have hg : submitGuard s = true := by
    unfold submitGuard
    rw [hfile]
    simp
  refine ⟨hg, ?_, ?_, rfl, ?_⟩
  · intro item hitem
    rw [createUserMessage_content_no_preview s hprev] at hitem
    by_cases htr : jsTrim s.inputValue ≠ ""
    · rw [if_pos htr] at hitem
      simp at hitem
      exact ⟨s.inputValue, hitem⟩
    · rw [if_neg htr] at hitem
      simp at hitem
  · intro htr
    rw [createUserMessage_content_no_preview s hprev]
    simp [htr]
  · unfold handleSubmit
    simp [hg]

/-- C9 witness: empty text plus a selected file with no preview yields an
empty-content user message while the guard passes. -/
theorem submit_pending_preview_witness :
    (createUserMessage { initialState with selectedImage := some ⟨"image/png", 10⟩ }).1.content
      = []
    ∧ submitGuard { initialState with selectedImage := some ⟨"image/png", 10⟩ } = true := by
  have h := submit_pending_preview (fun _ => none) ⟨none, none⟩
      { initialState with selectedImage := some ⟨"image/png", 10⟩ } ⟨"image/png", 10⟩ rfl rfl
  exact ⟨h.2.2.1 (by decide), h.1⟩

/-- C10: the optimistic input reset is never rolled back — once the guard
passes, the text buffer and the attachment are cleared in the final state for
every transport outcome, and a failed exchange changes nothing else but the
error string (and forces loading to false): history and every remaining field
keep their pre-submit values. -/
theorem optimistic_reset_permanent (parse : String → Option Message)
    (remote : RemoteResult) (s : ChatState) (hg : submitGuard s = true) :
    ((handleSubmit parse remote s).inputValue = ""
     ∧ (handleSubmit parse remote s).selectedImage = none
     ∧ (handleSubmit parse remote s).imagePreview = none)
    ∧ (responseMessageOf parse remote = none →
        handleSubmit parse remote s =
          { s with inputValue := "", selectedImage := none, imagePreview := none,
                   error := failureErrorOf parse remote, isLoading := false }) := by
  cases hrm : responseMessageOf parse remote with
  | some m =>
    rw [handleSubmit_run parse remote s hg, hrm]
    exact ⟨⟨rfl, rfl, rfl⟩, fun h => absurd h (Option.some_ne_none m)⟩
  | none =>
    rw [handleSubmit_run parse remote s hg, hrm]
    exact ⟨⟨rfl, rfl, rfl⟩, fun _ => rfl⟩

/-- C10 witness: a failed exchange leaves the typed text and the selected
image cleared and only sets the error. -/
theorem optimistic_reset_permanent_witness :
    handleSubmit (fun _ => none) ⟨none, some [⟨some "boom", none⟩]⟩
        { initialState with inputValue := "hello",
                            selectedImage := some ⟨"image/png", 9⟩,
                            imagePreview := some "data:image/png;base64,QUJD" }
      = { conversation := [], inputValue := "", selectedImage := none,
          imagePreview := none, error := "boom", isLoading := false } := by
  have h := optimistic_reset_permanent (fun _ => none) ⟨none, some [⟨some "boom", none⟩]⟩
      { initialState with inputValue := "hello",
                          selectedImage := some ⟨"image/png", 9⟩,
                          imagePreview := some "data:image/png;base64,QUJD" } (by decide)
  rw [h.2 (by decide)]
  decide
